import Mathlib

/-!
# Ray/cone intersection and the render loop

A shallow embedding of `cone::hit` (src/src/cone.h) and of `read_config` and
`render` (src/src/main.cc).

Arithmetic is carried out in an arbitrary linearly ordered field `α`, with the
library functions `sqrt`, `tan`, `cos`, `sin`, `stoi`, `stod` and the
formatted extraction of numbers passed as arguments; statements in exact real
arithmetic instantiate `α` with the real numbers and the functions of the
same name from the real-analysis library.  Division by zero yields zero in a
Lean field, so statements that divide by the leading coefficient `A` assume
`A ≠ 0`.  The frame counter and the sizes of `render` are natural numbers
without an upper bound; they agree with the C++ `int` values below `2^31`.
A configuration file is the list of its lines.
-/

namespace Raytrace

/-! ## Vectors, rays, intervals, hit records -/

/-- Modelled from the spec: `vec3` / `point3` (vec3.h is not among the sources),
a triple of coordinates with component-wise arithmetic. -/
structure vec3 (α : Type) where
  x : α
  y : α
  z : α

namespace vec3

variable {α : Type}

instance [Add α] : Add (vec3 α) := ⟨fun u v => ⟨u.x + v.x, u.y + v.y, u.z + v.z⟩⟩
instance [Sub α] : Sub (vec3 α) := ⟨fun u v => ⟨u.x - v.x, u.y - v.y, u.z - v.z⟩⟩
instance [Neg α] : Neg (vec3 α) := ⟨fun v => ⟨-v.x, -v.y, -v.z⟩⟩

/-- Scalar multiple `t * v`. -/
def smul [Mul α] (t : α) (v : vec3 α) : vec3 α := ⟨t * v.x, t * v.y, t * v.z⟩

/-- Dot product. -/
def dot [Add α] [Mul α] (u v : vec3 α) : α := u.x * v.x + u.y * v.y + u.z * v.z

/-- Euclidean length, through the supplied square root. -/
def length [Add α] [Mul α] (sqrt : α → α) (v : vec3 α) : α := sqrt (dot v v)

/-- The vector `v / |v|`. -/
def unit_vector [Add α] [Mul α] [Div α] (sqrt : α → α) (v : vec3 α) : vec3 α :=
  ⟨v.x / length sqrt v, v.y / length sqrt v, v.z / length sqrt v⟩

end vec3

/-- Modelled from the spec: `ray` (ray.h is not among the sources), an origin
point and a direction vector. -/
structure ray (α : Type) where
  origin : vec3 α
  direction : vec3 α

/-- Modelled from the spec: `ray::at` (ray.h is not among the sources), the
point `origin + t * direction`. -/
def ray.point_at {α : Type} [Add α] [Mul α] (r : ray α) (t : α) : vec3 α :=
  r.origin + vec3.smul t r.direction

/-- A bound of an interval: a number, or minus / plus infinity (the C++ `double`
bounds may be infinite). -/
abbrev bound (α : Type) := WithBot (WithTop α)

/-- A number as an interval bound. -/
def bound.of {α : Type} (x : α) : bound α := ((x : WithTop α) : WithBot (WithTop α))

/-- Plus infinity as an interval bound. -/
def bound.infinity {α : Type} : bound α := ((⊤ : WithTop α) : WithBot (WithTop α))

/-- Modelled from the spec: `interval` (interval.h is not among the sources), a
pair of bounds `t_min`, `t_max` on the ray parameter. -/
structure interval (α : Type) where
  min : bound α
  max : bound α

/-- Modelled from the spec: `interval::surrounds` (interval.h is not among the
sources): the parameter lies inside the interval, strictly between the
bounds. -/
def interval.surrounds {α : Type} [LT α] (i : interval α) (x : α) : Prop :=
  i.min < bound.of x ∧ bound.of x < i.max

instance {α : Type} [LinearOrder α] (i : interval α) (x : α) :
    Decidable (i.surrounds x) := by
  unfold interval.surrounds
  exact inferInstance

/-- A handle standing for the shared pointer to a material. -/
structure material where
  id : Nat
deriving DecidableEq

/-- Modelled from the spec: `hit_record` (hittable.h is not among the sources):
hit point, normal, material, hit parameter and front/back-face flag. -/
structure hit_record (α : Type) where
  p : vec3 α
  normal : vec3 α
  mat : material
  t : α
  front_face : Bool

/-- Modelled from the spec: `hit_record::set_face_normal` (hittable.h is not
among the sources): the outward normal is flipped so that it opposes the
incoming ray, and normalised. -/
def hit_record.set_face_normal {α : Type} [LinearOrderedField α] (sqrt : α → α)
    (h : hit_record α) (r : ray α) (outward_normal : vec3 α) : hit_record α :=
  let front_face : Bool := decide (vec3.dot r.direction outward_normal < 0)
  { h with
    front_face := front_face
    normal := vec3.unit_vector sqrt (if front_face then outward_normal else -outward_normal) }

/-! ## The cone -/

/-- The cone of cone.h: apex, height, tangent of the half-angle, material. -/
structure cone (α : Type) where
  vertex : vec3 α
  height : α
  k : α
  mat : material

namespace cone

variable {α : Type}

/-- The constructor `cone(vertex, height, angle, mat)`: it stores
`k = tan(angle)`. -/
def new (tan : α → α) (vertex : vec3 α) (height : α) (angle : α) (mat : material) : cone α :=
  ⟨vertex, height, tan angle, mat⟩

variable [LinearOrderedField α]

/-- The local `oc = r.origin() - vertex`. -/
def oc (c : cone α) (r : ray α) : vec3 α := r.origin - c.vertex

/-- The local `k2 = k * k`. -/
def k2 (c : cone α) : α := c.k * c.k

/-- The quadratic coefficient `A` of `cone::hit`. -/
def A (c : cone α) (r : ray α) : α :=
  r.direction.x * r.direction.x + r.direction.z * r.direction.z
    - c.k2 * r.direction.y * r.direction.y

/-- The quadratic coefficient `B` of `cone::hit`. -/
def B (c : cone α) (r : ray α) : α :=
  2 * ((c.oc r).x * r.direction.x + (c.oc r).z * r.direction.z
    - c.k2 * (c.oc r).y * r.direction.y)

/-- The quadratic coefficient `C` of `cone::hit`. -/
def C (c : cone α) (r : ray α) : α :=
  (c.oc r).x * (c.oc r).x + (c.oc r).z * (c.oc r).z - c.k2 * (c.oc r).y * (c.oc r).y

/-- The local `discriminant = B * B - 4 * A * C`. -/
def discriminant (c : cone α) (r : ray α) : α :=
  c.B r * c.B r - 4 * c.A r * c.C r

/-- The root tested first, `(-B - sqrtd) / (2 * A)`. -/
def first_root (sqrt : α → α) (c : cone α) (r : ray α) : α :=
  (-(c.B r) - sqrt (c.discriminant r)) / (2 * c.A r)

/-- The root tested second, `(-B + sqrtd) / (2 * A)`. -/
def second_root (sqrt : α → α) (c : cone α) (r : ray α) : α :=
  (-(c.B r) + sqrt (c.discriminant r)) / (2 * c.A r)

/-- The block "Find nearest valid root" of `cone::hit`: the root that passes
the interval test, or `none` where the code returns false. -/
def find_root (sqrt : α → α) (c : cone α) (r : ray α) (ray_t : interval α) : Option α :=
  if ¬ ray_t.surrounds (c.first_root sqrt r) then
    if ¬ ray_t.surrounds (c.second_root sqrt r) then none
    else some (c.second_root sqrt r)
  else some (c.first_root sqrt r)

/-- The method `cone::hit`: the returned flag together with the hit record as
the call leaves it. -/
def hit (sqrt : α → α) (c : cone α) (r : ray α) (ray_t : interval α)
    (rec_in : hit_record α) : Bool × hit_record α :=
  if c.discriminant r < 0 then (false, rec_in)
  else
    match c.find_root sqrt r ray_t with
    | none => (false, rec_in)
    | some root =>
      let rec1 : hit_record α := { rec_in with t := root }
      let rec2 : hit_record α := { rec1 with p := r.point_at rec1.t }
      let y := rec2.p.y - c.vertex.y
      if y < 0 ∨ y > c.height then (false, rec2)
      else
        let outward_normal : vec3 α :=
          ⟨rec2.p.x, -c.k2 * (rec2.p.y - c.vertex.y), rec2.p.z⟩
        let rec3 := rec2.set_face_normal sqrt r outward_normal
        (true, { rec3 with mat := c.mat })

/-- The point lies on the finite cone: on the quadric surface, with local height
between `0` and `height`. -/
def on_finite_cone (c : cone α) (p : vec3 α) : Prop :=
  (p.x - c.vertex.x) ^ 2 + (p.z - c.vertex.z) ^ 2 = c.k ^ 2 * (p.y - c.vertex.y) ^ 2
    ∧ 0 ≤ p.y - c.vertex.y ∧ p.y - c.vertex.y ≤ c.height

end cone

/-! ## The configuration reader -/

/-- The C classification `isspace`: blank, tab, line feed, vertical tab, form
feed, carriage return. -/
def isspace (ch : Char) : Bool :=
  ch.toNat = 32 || (9 ≤ ch.toNat && ch.toNat ≤ 13)

/-- Formatted extraction of a string, `ss >> token`: leading white space is
skipped and the characters up to the next white space are taken; the result
is the token and the unread rest of the stream.  An exhausted stream yields
the empty token. -/
def extract_token (stream : List Char) : String × List Char :=
  let s := stream.dropWhile isspace
  (String.mk (s.takeWhile (fun ch => !isspace ch)), s.dropWhile (fun ch => !isspace ch))

/-- The call `getline(conf, line)` on a file given as its list of lines: the
next line and the remaining file; past the end the line is empty. -/
def getline (conf : List String) : String × List String :=
  match conf with
  | [] => ("", [])
  | line :: rest => (line, rest)

/-- The overload `string read_config(conf, key, default_value)`. -/
def read_config_string (conf : List String) (key : String) (default_value : String) :
    String × List String :=
  let (line, conf) := getline conf
  let (confkey, ss) := extract_token line.data
  let (value, _) := extract_token ss
  (if key = confkey then value else default_value, conf)

/-- The overload `int read_config(conf, key, default_value)`; `stoi` answers
`none` where the library function throws, and the exception ends the run. -/
def read_config_int (stoi : String → Option Int) (conf : List String) (key : String)
    (default_value : Int) : Option (Int × List String) :=
  let (line, conf) := getline conf
  let (confkey, ss) := extract_token line.data
  let (value, _) := extract_token ss
  if key = confkey then (stoi value).map (fun v => (v, conf)) else some (default_value, conf)

/-- The overload `double read_config(conf, key, default_value)`; `stod` answers
`none` where the library function throws. -/
def read_config_double {α : Type} (stod : String → Option α) (conf : List String) (key : String)
    (default_value : α) : Option (α × List String) :=
  let (line, conf) := getline conf
  let (confkey, ss) := extract_token line.data
  let (value, _) := extract_token ss
  if key = confkey then (stod value).map (fun v => (v, conf)) else some (default_value, conf)

/-- The overload `vec3 read_config(conf, key, default_value)`; `extract3` is
the formatted extraction `ss >> x >> y >> z` of three numbers from the rest
of the line, `none` where it fails. -/
def read_config_vec3 {α : Type} (extract3 : List Char → Option (vec3 α)) (conf : List String)
    (key : String) (default_value : vec3 α) : vec3 α × List String :=
  let (line, conf) := getline conf
  let (confkey, ss) := extract_token line.data
  if key ≠ confkey then (default_value, conf)
  else
    match extract3 ss with
    | some v => (v, conf)
    | none => (default_value, conf)

/-- Conversion of an `int` to `uint32_t`. -/
def to_uint32 (i : Int) : Nat := (i % 4294967296).toNat

/-- The configuration variables that `render` reads at its start. -/
structure settings (α : Type) where
  filename : String
  w : Nat
  h : Nat
  num_frames : Nat
  worldid : Nat
  min_coord : Int
  max_coord : Int
  samples_per_pixel : Int
  max_depth : Int
  vfov : α
  defocus_angle : α
  focus_dist : α
  lookfrom0 : vec3 α
  lookat0 : vec3 α
  vup0 : vec3 α
  lookfrom1 : vec3 α
  lookat1 : vec3 α
  vup1 : vec3 α
  bg_color : vec3 α

/-- The first part of `render`: the nineteen calls of `read_config`, in the
order of the code, each on the file as the previous call left it. -/
def read_settings {α : Type} [LinearOrderedField α] (stoi : String → Option Int)
    (stod : String → Option α) (extract3 : List Char → Option (vec3 α))
    (conf : List String) : Option (settings α) :=
  match read_config_string conf "filename" "test" with
  | (filename, conf) =>
  match read_config_int stoi conf "w" 1200 with
  | none => none
  | some (w, conf) =>
  match read_config_int stoi conf "h" 1024 with
  | none => none
  | some (h, conf) =>
  match read_config_int stoi conf "num_frames" 30 with
  | none => none
  | some (num_frames, conf) =>
  match read_config_int stoi conf "world" 0 with
  | none => none
  | some (worldid, conf) =>
  match read_config_int stoi conf "min_coord" (-11) with
  | none => none
  | some (min_coord, conf) =>
  match read_config_int stoi conf "max_coord" 11 with
  | none => none
  | some (max_coord, conf) =>
  match read_config_int stoi conf "samples_per_pixel" 10 with
  | none => none
  | some (samples_per_pixel, conf) =>
  match read_config_int stoi conf "max_depth" 40 with
  | none => none
  | some (max_depth, conf) =>
  match read_config_double stod conf "vfov" 90 with
  | none => none
  | some (vfov, conf) =>
  match read_config_double stod conf "defocus_angle" (1 / 10) with
  | none => none
  | some (defocus_angle, conf) =>
  match read_config_double stod conf "focus_dist" 10 with
  | none => none
  | some (focus_dist, conf) =>
  match read_config_vec3 extract3 conf "lookfrom0" ⟨-2, 2, 5⟩ with
  | (lookfrom0, conf) =>
  match read_config_vec3 extract3 conf "lookat0" ⟨0, 0, 0⟩ with
  | (lookat0, conf) =>
  match read_config_vec3 extract3 conf "vup0" ⟨0, 1, 0⟩ with
  | (vup0, conf) =>
  match read_config_vec3 extract3 conf "lookfrom1" ⟨13, 2, 3⟩ with
  | (lookfrom1, conf) =>
  match read_config_vec3 extract3 conf "lookat1" ⟨0, 0, 0⟩ with
  | (lookat1, conf) =>
  match read_config_vec3 extract3 conf "vup1" ⟨0, 1, 0⟩ with
  | (vup1, conf) =>
  match read_config_vec3 extract3 conf "bg_color" ⟨1, 1, 1⟩ with
  | (bg_color, _) =>
  some
    { filename := filename
      w := to_uint32 w
      h := to_uint32 h
      num_frames := to_uint32 num_frames
      worldid := to_uint32 worldid
      min_coord := min_coord
      max_coord := max_coord
      samples_per_pixel := samples_per_pixel
      max_depth := max_depth
      vfov := vfov
      defocus_angle := defocus_angle
      focus_dist := focus_dist
      lookfrom0 := lookfrom0
      lookat0 := lookat0
      vup0 := vup0
      lookfrom1 := lookfrom1
      lookat1 := lookat1
      vup1 := vup1
      bg_color := bg_color }

/-! ## The frame loop of `render` -/

/-- Modelled from the spec: the public fields of `camera` that `render` sets
(camera.h is not among the sources). -/
structure camera (α : Type) where
  aspect_ratio : α
  image_width : Nat
  image_height : Nat
  samples_per_pixel : Int
  max_depth : Int
  background : vec3 α
  vfov : α
  lookfrom : vec3 α
  lookat : vec3 α
  vup : vec3 α
  defocus_angle : α
  focus_dist : α

/-- The world handed to the renderer, named by the function that builds it and
the position that function receives. -/
inductive scene (α : Type) where
  | moon_picture (moon_pos : vec3 α)
  | moon_phases (moon_pos : vec3 α)
  | earth

/-- The calls by which `render` reaches the renderer and the two output sinks.
The pixel buffer is named by the frame whose rendering filled it last. -/
inductive event (α : Type) where
  | setup_video_pipe (width height fps : Nat) (filename : String)
  | cam_render (world : scene α) (cam : camera α) (frame : Nat)
  | write_webp (filename : String) (buffer : Nat) (width height : Nat)
  | write_frame (buffer : Nat) (frame_size : Nat)
  | close_video_pipe

/-- The `switch (worldid)` of the video loop: the world built and the camera
as the case leaves it; `none` is the `default` case, which returns from
`render`. -/
def select_world {α : Type} [LinearOrderedField α] (worldid : Nat) (cam : camera α)
    (moon_video_pos moon_phase_pos moon_phase_pos_cam : vec3 α) :
    Option (scene α × camera α) :=
  match worldid with
  | 0 => some (scene.moon_picture ⟨0, 5, 0⟩, cam)
  | 1 => some (scene.moon_picture moon_video_pos, cam)
  | 2 => some (scene.moon_phases moon_phase_pos, { cam with lookat := moon_phase_pos_cam })
  | 3 => some (scene.earth, cam)
  | _ => none

/-- One pass through the body of the video loop: the calls it makes and the
camera as it leaves it; `none` when the `default` case of the switch returns
from `render`. -/
def frame_body {α : Type} [LinearOrderedField α] (cos sin : α → α) (s : settings α)
    (cam : camera α) (frame : Nat) : Option (List (event α) × camera α) :=
  let per_frame : α := 1 / (s.num_frames : α)
  let delta_lookfrom := s.lookfrom1 - s.lookfrom0
  let delta_lookat := s.lookat1 - s.lookat0
  let delta_vup := s.vup1 - s.vup0
  let frame_size := cam.image_width * cam.image_height * 4
  let f : α := (frame : α) * per_frame
  let cam : camera α :=
    { cam with
      lookfrom := s.lookfrom0 + vec3.smul f delta_lookfrom
      lookat := s.lookat0 + vec3.smul f delta_lookat
      vup := s.vup0 + vec3.smul f delta_vup }
  let r : α := 200
  let phase_res : α := 100
  let moon_video_pos : vec3 α := ⟨-5 + 10 * f, 5, 0⟩
  let moon_phase_pos : vec3 α :=
    ⟨r * cos ((frame : α) / phase_res), r / 10 * sin ((frame : α) / phase_res),
      r * sin ((frame : α) / phase_res)⟩
  let moon_phase_pos_cam : vec3 α :=
    ⟨r * cos ((frame : α) / phase_res), 0, r * sin ((frame : α) / phase_res)⟩
  match select_world s.worldid cam moon_video_pos moon_phase_pos moon_phase_pos_cam with
  | none => none
  | some (world, cam) =>
    let rgba_buffer := frame
    some ([event.cam_render world cam frame]
        ++ (if frame = 0 then
              [event.write_webp s.filename rgba_buffer cam.image_width cam.image_height]
            else [])
        ++ (if s.num_frames > 1 then [event.write_frame rgba_buffer frame_size] else []),
      cam)

/-- The video loop of `render` from the given frame on, followed by the code
after the loop; the `default` case of the switch leaves `render` at once. -/
def video_loop {α : Type} [LinearOrderedField α] (cos sin : α → α) (s : settings α)
    (cam : camera α) (frame : Nat) : List (event α) :=
  if frame < s.num_frames then
    match frame_body cos sin s cam frame with
    | none => []
    | some (calls, cam) => calls ++ video_loop cos sin s cam (frame + 1)
  else
    if s.num_frames > 1 then [event.close_video_pipe] else []
termination_by s.num_frames - frame

/-- The part of `render` after the configuration is read: camera set-up,
opening of the video pipe, the video loop and the closing of the pipe. -/
def render_frames {α : Type} [LinearOrderedField α] (cos sin : α → α) (s : settings α) :
    List (event α) :=
  let cam : camera α :=
    { aspect_ratio := 16 / 9
      image_width := s.w
      image_height := s.h
      samples_per_pixel := s.samples_per_pixel
      max_depth := s.max_depth
      background := s.bg_color
      vfov := s.vfov
      lookfrom := s.lookfrom0
      lookat := s.lookat0
      vup := s.vup0
      defocus_angle := s.defocus_angle
      focus_dist := s.focus_dist }
  let fps := 30
  let video_filename := s.filename ++ ".mp4"
  (if s.num_frames > 1 then
      [event.setup_video_pipe cam.image_width cam.image_height fps video_filename]
    else [])
    ++ video_loop cos sin s cam 0

/-- The function `render` on a configuration file given as its list of lines:
the calls it makes, or `none` when a conversion throws. -/
def render {α : Type} [LinearOrderedField α] (stoi : String → Option Int)
    (stod : String → Option α) (extract3 : List Char → Option (vec3 α)) (cos sin : α → α)
    (conf : List String) : Option (List (event α)) :=
  (read_settings stoi stod extract3 conf).map (render_frames cos sin)

/-! ## What the claims observe -/

/-- What the renderer and the two sinks see of a call. -/
inductive step where
  | open_channel
  | render_frame (frame : Nat)
  | encode_still (buffer : Nat)
  | write_bytes (buffer : Nat) (bytes : Nat)
  | close_channel
deriving DecidableEq

/-- The observation of a call of `render`. -/
def event.step {α : Type} : event α → step
  | event.setup_video_pipe _ _ _ _ => step.open_channel
  | event.cam_render _ _ frame => step.render_frame frame
  | event.write_webp _ buffer _ _ => step.encode_still buffer
  | event.write_frame buffer frame_size => step.write_bytes buffer frame_size
  | event.close_video_pipe => step.close_channel

/-- A camera pose: eye, target, up. -/
structure pose (α : Type) where
  lookfrom : vec3 α
  lookat : vec3 α
  vup : vec3 α

/-- The frame index and the camera pose of a call of the renderer. -/
def event.pose {α : Type} : event α → Option (Nat × pose α)
  | event.cam_render _ cam frame => some (frame, ⟨cam.lookfrom, cam.lookat, cam.vup⟩)
  | _ => none

/-- The interpolation `value0 + (f / N) * (value1 - value0)`. -/
def lerp {α : Type} [LinearOrderedField α] (value0 value1 : vec3 α) (f N : Nat) : vec3 α :=
  value0 + vec3.smul ((f : α) / (N : α)) (value1 - value0)

/-- The calls of frame `f` as the sinks see them, for `N` frames of `size`
bytes. -/
def frame_steps (N size : Nat) (f : Nat) : List step :=
  [step.render_frame f] ++ (if f = 0 then [step.encode_still f] else [])
    ++ (if N > 1 then [step.write_bytes f size] else [])

/-- The code after the loop as the sinks see it. -/
def closing_steps (N : Nat) : List step := if N > 1 then [step.close_channel] else []

/-- The point of the orbit that world 2 makes the target of the camera. -/
def orbit_target {α : Type} [LinearOrderedField α] (cos sin : α → α) (f : Nat) : vec3 α :=
  ⟨200 * cos ((f : α) / 100), 0, 200 * sin ((f : α) / 100)⟩

/-- The target of the camera in frame `f`: interpolated, except in world 2. -/
def frame_lookat {α : Type} [LinearOrderedField α] (cos sin : α → α) (s : settings α)
    (f : Nat) : vec3 α :=
  if s.worldid = 2 then orbit_target cos sin f else lerp s.lookat0 s.lookat1 f s.num_frames

/-- The line at position `i` of the file, empty past its end. -/
def line_at (conf : List String) (i : Nat) : String := (getline (conf.drop i)).1

/-- The first token of a line, which `read_config` compares with the key. -/
def confkey_of (line : String) : String := (extract_token line.data).1

/-- The value the `string` overload returns on a one-line file. -/
def string_on_line (line key default_value : String) : String :=
  (read_config_string [line] key default_value).1

/-- The value the `int` overload returns on a one-line file. -/
def int_on_line (stoi : String → Option Int) (line key : String) (default_value : Int) :
    Option Int :=
  (read_config_int stoi [line] key default_value).map Prod.fst

/-- The value the `double` overload returns on a one-line file. -/
def double_on_line {α : Type} (stod : String → Option α) (line key : String)
    (default_value : α) : Option α :=
  (read_config_double stod [line] key default_value).map Prod.fst

/-- The value the `vec3` overload returns on a one-line file. -/
def vec3_on_line {α : Type} (extract3 : List Char → Option (vec3 α)) (line key : String)
    (default_value : vec3 α) : vec3 α :=
  (read_config_vec3 extract3 [line] key default_value).1

/-- The settings computed line by line: every variable from the line at its
own position in the file, whatever the other lines hold. -/
def settings_at_positions {α : Type} [LinearOrderedField α] (stoi : String → Option Int)
    (stod : String → Option α) (extract3 : List Char → Option (vec3 α))
    (conf : List String) : Option (settings α) :=
  match int_on_line stoi (line_at conf 1) "w" 1200 with
  | none => none
  | some w =>
  match int_on_line stoi (line_at conf 2) "h" 1024 with
  | none => none
  | some h =>
  match int_on_line stoi (line_at conf 3) "num_frames" 30 with
  | none => none
  | some num_frames =>
  match int_on_line stoi (line_at conf 4) "world" 0 with
  | none => none
  | some worldid =>
  match int_on_line stoi (line_at conf 5) "min_coord" (-11) with
  | none => none
  | some min_coord =>
  match int_on_line stoi (line_at conf 6) "max_coord" 11 with
  | none => none
  | some max_coord =>
  match int_on_line stoi (line_at conf 7) "samples_per_pixel" 10 with
  | none => none
  | some samples_per_pixel =>
  match int_on_line stoi (line_at conf 8) "max_depth" 40 with
  | none => none
  | some max_depth =>
  match double_on_line stod (line_at conf 9) "vfov" 90 with
  | none => none
  | some vfov =>
  match double_on_line stod (line_at conf 10) "defocus_angle" (1 / 10) with
  | none => none
  | some defocus_angle =>
  match double_on_line stod (line_at conf 11) "focus_dist" 10 with
  | none => none
  | some focus_dist =>
  some
    { filename := string_on_line (line_at conf 0) "filename" "test"
      w := to_uint32 w
      h := to_uint32 h
      num_frames := to_uint32 num_frames
      worldid := to_uint32 worldid
      min_coord := min_coord
      max_coord := max_coord
      samples_per_pixel := samples_per_pixel
      max_depth := max_depth
      vfov := vfov
      defocus_angle := defocus_angle
      focus_dist := focus_dist
      lookfrom0 := vec3_on_line extract3 (line_at conf 12) "lookfrom0" ⟨-2, 2, 5⟩
      lookat0 := vec3_on_line extract3 (line_at conf 13) "lookat0" ⟨0, 0, 0⟩
      vup0 := vec3_on_line extract3 (line_at conf 14) "vup0" ⟨0, 1, 0⟩
      lookfrom1 := vec3_on_line extract3 (line_at conf 15) "lookfrom1" ⟨13, 2, 3⟩
      lookat1 := vec3_on_line extract3 (line_at conf 16) "lookat1" ⟨0, 0, 0⟩
      vup1 := vec3_on_line extract3 (line_at conf 17) "vup1" ⟨0, 1, 0⟩
      bg_color := vec3_on_line extract3 (line_at conf 18) "bg_color" ⟨1, 1, 1⟩ }

/-! ## Library conversions on plain decimal numerals, and sample inputs -/

/-- The value of a decimal digit. -/
def digit_value (ch : Char) : Option Nat :=
  if 48 ≤ ch.toNat ∧ ch.toNat ≤ 57 then some (ch.toNat - 48) else none

/-- The leading decimal digits of a text: their value, their number, and the
rest of the text. -/
def take_number : List Char → Nat → Nat → Nat × Nat × List Char
  | [], acc, n => (acc, n, [])
  | ch :: rest, acc, n =>
    match digit_value ch with
    | none => (acc, n, ch :: rest)
    | some d => take_number rest (acc * 10 + d) (n + 1)

/-- The sign of a numeral and the text after it. -/
def take_sign (text : List Char) : Bool × List Char :=
  match text with
  | '-' :: rest => (true, rest)
  | '+' :: rest => (false, rest)
  | _ => (false, text)

/-- The library function `std::stoi` on a token: an optional sign and the
leading decimal digits; `none` where it throws (no digit, or a value outside
the range of `int`). -/
def stoi_decimal (value : String) : Option Int :=
  let (negative, text) := take_sign value.data
  let (magnitude, digits, _) := take_number text 0 0
  let i : Int := if negative then -(magnitude : Int) else (magnitude : Int)
  if digits = 0 then none
  else if -2147483648 ≤ i ∧ i ≤ 2147483647 then some i
  else none

/-- The library function `std::stod` on a token spelled as a plain decimal
numeral (optional sign, digits, optional point and digits); `none` where it
throws for want of a digit. -/
def stod_decimal {α : Type} [LinearOrderedField α] (value : String) : Option α :=
  let (negative, text) := take_sign value.data
  let (whole, digits, rest) := take_number text 0 0
  let (fraction, places) : Nat × Nat :=
    match rest with
    | '.' :: after => ((take_number after 0 0).1, (take_number after 0 0).2.1)
    | _ => (0, 0)
  let x : α := (whole : α) + (fraction : α) / 10 ^ places
  if digits + places = 0 then none
  else some (if negative then -x else x)

/-- The formatted extraction `ss >> x >> y >> z` on three plain decimal
numerals separated by white space. -/
def extract3_decimal {α : Type} [LinearOrderedField α] (ss : List Char) : Option (vec3 α) :=
  let (x, ss) := extract_token ss
  let (y, ss) := extract_token ss
  let (z, _) := extract_token ss
  match stod_decimal x, stod_decimal y, stod_decimal z with
  | some x, some y, some z => some ⟨x, y, z⟩
  | _, _, _ => none

/-- The interval `(0, ∞)` of ray parameters ahead of the origin. -/
def ahead (α : Type) [LinearOrderedField α] : interval α := ⟨bound.of 0, bound.infinity⟩

/-- A hit record with every field zero. -/
def blank_record (α : Type) [LinearOrderedField α] : hit_record α :=
  ⟨⟨0, 0, 0⟩, ⟨0, 0, 0⟩, ⟨0⟩, 0, false⟩

/-- The settings `render` reads from an empty file, but for the number of
frames and the world selector. -/
def default_settings (α : Type) [LinearOrderedField α] (num_frames worldid : Nat) :
    settings α :=
  { filename := "test"
    w := 1200
    h := 1024
    num_frames := num_frames
    worldid := worldid
    min_coord := -11
    max_coord := 11
    samples_per_pixel := 10
    max_depth := 40
    vfov := 90
    defocus_angle := 1 / 10
    focus_dist := 10
    lookfrom0 := ⟨-2, 2, 5⟩
    lookat0 := ⟨0, 0, 0⟩
    vup0 := ⟨0, 1, 0⟩
    lookfrom1 := ⟨13, 2, 3⟩
    lookat1 := ⟨0, 0, 0⟩
    vup1 := ⟨0, 1, 0⟩
    bg_color := ⟨1, 1, 1⟩ }

/-- A configuration file complete but for the lines of `w` and `h`, which have
changed places. -/
def swapped_conf : List String :=
  [ "filename out",
    "h 600",
    "w 800",
    "num_frames 5",
    "world 1",
    "min_coord -11",
    "max_coord 11",
    "samples_per_pixel 50",
    "max_depth 20",
    "vfov 20",
    "defocus_angle 0.6",
    "focus_dist 10.0",
    "lookfrom0 13 2 3",
    "lookat0 0 0 0",
    "vup0 0 1 0",
    "lookfrom1 -2 2 5",
    "lookat1 0 0 0",
    "vup1 0 1 0",
    "bg_color 0.7 0.8 1" ]

/-! ## Basic facts on the cone -/

/-- Two vectors are equal when their coordinates are. -/
theorem vec3_ext_iff {α : Type} (u v : vec3 α) :
    u = v ↔ u.x = v.x ∧ u.y = v.y ∧ u.z = v.z := by
  cases u
  cases v
  simp

section cone_facts

variable {α : Type} [LinearOrderedField α]

@[simp]
theorem vec3_add_x (u v : vec3 α) : (u + v).x = u.x + v.x := rfl

@[simp]
theorem vec3_add_y (u v : vec3 α) : (u + v).y = u.y + v.y := rfl

@[simp]
theorem vec3_add_z (u v : vec3 α) : (u + v).z = u.z + v.z := rfl

@[simp]
theorem vec3_sub_x (u v : vec3 α) : (u - v).x = u.x - v.x := rfl

@[simp]
theorem vec3_sub_y (u v : vec3 α) : (u - v).y = u.y - v.y := rfl

@[simp]
theorem vec3_sub_z (u v : vec3 α) : (u - v).z = u.z - v.z := rfl

@[simp]
theorem vec3_neg_x (v : vec3 α) : (-v).x = -v.x := rfl

@[simp]
theorem vec3_neg_y (v : vec3 α) : (-v).y = -v.y := rfl

@[simp]
theorem vec3_neg_z (v : vec3 α) : (-v).z = -v.z := rfl

@[simp]
theorem vec3_smul_x (t : α) (v : vec3 α) : (vec3.smul t v).x = t * v.x := rfl

@[simp]
theorem vec3_smul_y (t : α) (v : vec3 α) : (vec3.smul t v).y = t * v.y := rfl

@[simp]
theorem vec3_smul_z (t : α) (v : vec3 α) : (vec3.smul t v).z = t * v.z := rfl

theorem point_at_x (r : ray α) (t : α) : (r.point_at t).x = r.origin.x + t * r.direction.x := rfl

theorem point_at_y (r : ray α) (t : α) : (r.point_at t).y = r.origin.y + t * r.direction.y := rfl

theorem point_at_z (r : ray α) (t : α) : (r.point_at t).z = r.origin.z + t * r.direction.z := rfl

/-- Membership in the interval `(lo, ∞)`. -/
theorem surrounds_from (lo x : α) :
    (interval.mk (bound.of lo) bound.infinity).surrounds x ↔ lo < x := by
  unfold interval.surrounds bound.of bound.infinity
  rw [WithBot.coe_lt_coe, WithBot.coe_lt_coe, WithTop.coe_lt_coe]
  exact and_iff_left (WithTop.coe_lt_top x)

/-- The surface equation along the ray is the quadratic `A t² + B t + C = 0`. -/
theorem surface_iff_quadratic (c : cone α) (r : ray α) (t : α) :
    ((r.point_at t).x - c.vertex.x) ^ 2 + ((r.point_at t).z - c.vertex.z) ^ 2
        = c.k ^ 2 * ((r.point_at t).y - c.vertex.y) ^ 2
      ↔ c.A r * (t * t) + c.B r * t + c.C r = 0 := by
  have hx : (c.oc r).x = r.origin.x - c.vertex.x := rfl
  have hy : (c.oc r).y = r.origin.y - c.vertex.y := rfl
  have hz : (c.oc r).z = r.origin.z - c.vertex.z := rfl
  simp only [point_at_x, point_at_y, point_at_z, cone.A, cone.B, cone.C, cone.k2, hx, hy, hz]
  constructor
  · intro h
    linear_combination h
  · intro h
    linear_combination h

/-- The roots of the quadratic are the two values the code computes. -/
theorem quadratic_iff_roots (sqrt : α → α) (c : cone α) (r : ray α)
    (hA : c.A r ≠ 0) (hs : sqrt (c.discriminant r) * sqrt (c.discriminant r) = c.discriminant r)
    (t : α) :
    c.A r * (t * t) + c.B r * t + c.C r = 0
      ↔ t = c.second_root sqrt r ∨ t = c.first_root sqrt r := by
  have hd : discrim (c.A r) (c.B r) (c.C r)
      = sqrt (c.discriminant r) * sqrt (c.discriminant r) := by
    rw [hs]
    unfold discrim cone.discriminant
    ring
  exact quadratic_eq_zero_iff hA hd t

/-- Sum of the two roots, scaled by `A`. -/
theorem roots_sum (sqrt : α → α) (c : cone α) (r : ray α) (hA : c.A r ≠ 0) :
    c.A r * (c.first_root sqrt r + c.second_root sqrt r) = -(c.B r) := by
  unfold cone.first_root cone.second_root
  field_simp
  ring

/-- Product of the two roots, scaled by `A`. -/
theorem roots_prod (sqrt : α → α) (c : cone α) (r : ray α) (hA : c.A r ≠ 0)
    (hs : sqrt (c.discriminant r) * sqrt (c.discriminant r) = c.discriminant r) :
    c.A r * (c.first_root sqrt r * c.second_root sqrt r) = c.C r := by
  have hd : c.discriminant r = c.B r * c.B r - 4 * c.A r * c.C r := rfl
  unfold cone.first_root cone.second_root
  field_simp
  linear_combination (-(c.A r)) * hs - (c.A r) * hd

/-- The local heights at the two roots multiply, after scaling by `A`, to a sum
of two squares. -/
theorem heights_prod (sqrt : α → α) (c : cone α) (r : ray α) (hA : c.A r ≠ 0)
    (hs : sqrt (c.discriminant r) * sqrt (c.discriminant r) = c.discriminant r) :
    c.A r * (((r.point_at (c.first_root sqrt r)).y - c.vertex.y)
        * ((r.point_at (c.second_root sqrt r)).y - c.vertex.y))
      = (r.direction.x * (c.oc r).y - (c.oc r).x * r.direction.y) ^ 2
        + (r.direction.z * (c.oc r).y - (c.oc r).z * r.direction.y) ^ 2 := by
  have h1 := roots_sum sqrt c r hA
  have h2 := roots_prod sqrt c r hA hs
  have hy : (c.oc r).y = r.origin.y - c.vertex.y := rfl
  have hA2 : c.A r = r.direction.x * r.direction.x + r.direction.z * r.direction.z
    - c.k2 * r.direction.y * r.direction.y := rfl
  have hB2 : c.B r = 2 * ((c.oc r).x * r.direction.x + (c.oc r).z * r.direction.z
    - c.k2 * (c.oc r).y * r.direction.y) := rfl
  have hC2 : c.C r = (c.oc r).x * (c.oc r).x + (c.oc r).z * (c.oc r).z
    - c.k2 * (c.oc r).y * (c.oc r).y := rfl
  have hy2 : r.origin.y = (c.oc r).y + c.vertex.y := by
    rw [hy]
    ring
  simp only [point_at_y]
  rw [hy2]
  linear_combination ((c.oc r).y * r.direction.y) * h1 + (r.direction.y ^ 2) * h2
    + ((c.oc r).y ^ 2) * hA2 - ((c.oc r).y * r.direction.y) * hB2 + (r.direction.y ^ 2) * hC2

/-- The discriminant as an indefinite Lagrange identity. -/
theorem discriminant_eq (c : cone α) (r : ray α) :
    c.discriminant r
      = 4 * (c.k2 * ((r.direction.x * (c.oc r).y - (c.oc r).x * r.direction.y) ^ 2
          + (r.direction.z * (c.oc r).y - (c.oc r).z * r.direction.y) ^ 2)
        - ((c.oc r).x * r.direction.z - (c.oc r).z * r.direction.x) ^ 2) := by
  unfold cone.discriminant cone.A cone.B cone.C
  ring

/-- When both roots have non-negative local height, the root tested first is
not larger than the root tested second. -/
theorem first_le_second_of_heights (sqrt : α → α) (c : cone α) (r : ray α) (hA : c.A r ≠ 0)
    (hs : sqrt (c.discriminant r) * sqrt (c.discriminant r) = c.discriminant r)
    (hs0 : 0 ≤ sqrt (c.discriminant r))
    (h1 : 0 ≤ (r.point_at (c.first_root sqrt r)).y - c.vertex.y)
    (h2 : 0 ≤ (r.point_at (c.second_root sqrt r)).y - c.vertex.y) :
    c.first_root sqrt r ≤ c.second_root sqrt r := by
  rcases lt_or_gt_of_ne hA with hneg | hpos
  · have hp := heights_prod sqrt c r hA hs
    have hle : c.A r * (((r.point_at (c.first_root sqrt r)).y - c.vertex.y)
        * ((r.point_at (c.second_root sqrt r)).y - c.vertex.y)) ≤ 0 :=
      mul_nonpos_of_nonpos_of_nonneg hneg.le (mul_nonneg h1 h2)
    rw [hp] at hle
    have hW : (r.direction.x * (c.oc r).y - (c.oc r).x * r.direction.y) ^ 2
        + (r.direction.z * (c.oc r).y - (c.oc r).z * r.direction.y) ^ 2 = 0 :=
      le_antisymm hle (add_nonneg (sq_nonneg _) (sq_nonneg _))
    have hd := discriminant_eq c r
    rw [hW, mul_zero, zero_sub] at hd
    have hd0 : c.discriminant r ≤ 0 := by
      rw [hd]
      have := sq_nonneg ((c.oc r).x * r.direction.z - (c.oc r).z * r.direction.x)
      linarith
    have hsq : sqrt (c.discriminant r) * sqrt (c.discriminant r) ≤ 0 := by
      rw [hs]
      exact hd0
    have hz : sqrt (c.discriminant r) = 0 := by
      rcases eq_or_lt_of_le hs0 with h | h
      · exact h.symm
      · exact absurd (mul_pos h h) (not_lt.mpr hsq)
    unfold cone.first_root cone.second_root
    rw [hz]
    simp
  · unfold cone.first_root cone.second_root
    apply div_le_div_of_nonneg_right _ (by linarith)
    linarith

/-- What a reported hit says about the run of `cone::hit`. -/
theorem hit_true_inv (sqrt : α → α) (c : cone α) (r : ray α) (ray_t : interval α)
    (rec_in : hit_record α) (h : (c.hit sqrt r ray_t rec_in).1 = true) :
    0 ≤ c.discriminant r ∧ ∃ root, c.find_root sqrt r ray_t = some root
      ∧ (c.hit sqrt r ray_t rec_in).2.t = root
      ∧ (c.hit sqrt r ray_t rec_in).2.p = r.point_at root
      ∧ 0 ≤ (r.point_at root).y - c.vertex.y
      ∧ (r.point_at root).y - c.vertex.y ≤ c.height := by
  unfold cone.hit at h ⊢
  by_cases hd : c.discriminant r < 0
  · simp [hd] at h
  · rw [if_neg hd] at h ⊢
    refine ⟨not_lt.mp hd, ?_⟩
    cases hroot : c.find_root sqrt r ray_t with
    | none => simp [hroot] at h
    | some root =>
      simp only [hroot] at h ⊢
      by_cases hy : (r.point_at root).y - c.vertex.y < 0
          ∨ (r.point_at root).y - c.vertex.y > c.height
      · rw [if_pos hy] at h
        exact absurd h (by simp)
      · rw [if_neg hy]
        push_neg at hy
        exact ⟨root, rfl, rfl, rfl, hy.1, hy.2⟩

/-- The root that passes the interval test is one of the two computed roots, it
lies inside the interval, and it is the second one only when the first one
does not. -/
theorem find_root_some (sqrt : α → α) (c : cone α) (r : ray α) (ray_t : interval α)
    (root : α) (h : c.find_root sqrt r ray_t = some root) :
    ray_t.surrounds root ∧ (root = c.first_root sqrt r
      ∨ (root = c.second_root sqrt r ∧ ¬ ray_t.surrounds (c.first_root sqrt r))) := by
  unfold cone.find_root at h
  by_cases h1 : ray_t.surrounds (c.first_root sqrt r)
  · simp only [h1, not_true_eq_false, if_false, Option.some.injEq] at h
    subst h
    exact ⟨h1, Or.inl rfl⟩
  · by_cases h2 : ray_t.surrounds (c.second_root sqrt r)
    · simp only [h1, h2, not_false_eq_true, not_true_eq_false, if_true, if_false,
        Option.some.injEq] at h
      subst h
      exact ⟨h2, Or.inr ⟨rfl, h1⟩⟩
    · simp [h1, h2] at h

end cone_facts

section cone_eval
variable {α : Type} [LinearOrderedField α]

/-- The run of `cone::hit` when the first root passes the interval test and
the height test. -/
theorem hit_first_accept (sqrt : α → α) (c : cone α) (r : ray α) (ray_t : interval α)
    (rec_in : hit_record α) (hd : ¬ c.discriminant r < 0)
    (h1 : ray_t.surrounds (c.first_root sqrt r))
    (hy : ¬ ((r.point_at (c.first_root sqrt r)).y - c.vertex.y < 0
      ∨ (r.point_at (c.first_root sqrt r)).y - c.vertex.y > c.height)) :
    c.hit sqrt r ray_t rec_in
      = (true, { ({ rec_in with t := c.first_root sqrt r, p := r.point_at (c.first_root sqrt r) }
          : hit_record α).set_face_normal sqrt r
            ⟨(r.point_at (c.first_root sqrt r)).x,
              -c.k2 * ((r.point_at (c.first_root sqrt r)).y - c.vertex.y),
              (r.point_at (c.first_root sqrt r)).z⟩ with mat := c.mat }) := by
  have hf : c.find_root sqrt r ray_t = some (c.first_root sqrt r) := by
    unfold cone.find_root
    rw [if_neg (not_not.mpr h1)]
  unfold cone.hit
  rw [if_neg hd, hf]
  dsimp only
  rw [if_neg hy]

/-- The run of `cone::hit` when the first root passes the interval test and
fails the height test. -/
theorem hit_first_reject (sqrt : α → α) (c : cone α) (r : ray α) (ray_t : interval α)
    (rec_in : hit_record α) (hd : ¬ c.discriminant r < 0)
    (h1 : ray_t.surrounds (c.first_root sqrt r))
    (hy : (r.point_at (c.first_root sqrt r)).y - c.vertex.y < 0
      ∨ (r.point_at (c.first_root sqrt r)).y - c.vertex.y > c.height) :
    c.hit sqrt r ray_t rec_in
      = (false, { rec_in with t := c.first_root sqrt r, p := r.point_at (c.first_root sqrt r) }) := by
  have hf : c.find_root sqrt r ray_t = some (c.first_root sqrt r) := by
    unfold cone.find_root
    rw [if_neg (not_not.mpr h1)]
  unfold cone.hit
  rw [if_neg hd, hf]
  dsimp only
  rw [if_pos hy]

end cone_eval

theorem sqrt_of_sq (s : ℝ) (hs : 0 ≤ s) (x : ℝ) (hx : x = s * s) : Real.sqrt x = s := by
  rw [hx]
  exact Real.sqrt_mul_self hs


/-! ## Facts on the frame loop -/

section loop_facts

variable {α : Type} [LinearOrderedField α]

theorem frame_body_spec (cos sin : α → α) (s : settings α) (cam : camera α) (frame : Nat)
    (hw : s.worldid ≤ 3) :
    ∃ calls cam1, frame_body cos sin s cam frame = some (calls, cam1)
      ∧ cam1.image_width = cam.image_width ∧ cam1.image_height = cam.image_height
      ∧ calls.map event.step
          = frame_steps s.num_frames (cam.image_width * cam.image_height * 4) frame
      ∧ calls.filterMap event.pose
          = [(frame, ⟨lerp s.lookfrom0 s.lookfrom1 frame s.num_frames,
              frame_lookat cos sin s frame, lerp s.vup0 s.vup1 frame s.num_frames⟩)] := by
  have hcases : s.worldid = 0 ∨ s.worldid = 1 ∨ s.worldid = 2 ∨ s.worldid = 3 := by omega
  unfold frame_body
  rcases hcases with h | h | h | h <;>
  · simp only [h, select_world]
    refine ⟨_, _, rfl, rfl, rfl, ?_, ?_⟩
    · by_cases h0 : frame = 0 <;> by_cases h1 : s.num_frames > 1 <;>
        simp [frame_steps, event.step, h0, h1]
    · by_cases h0 : frame = 0 <;> by_cases h1 : s.num_frames > 1 <;>
        simp [event.pose, h0, h1, lerp, frame_lookat, orbit_target, h, div_eq_mul_inv]

theorem frame_body_none (cos sin : α → α) (s : settings α) (cam : camera α) (frame : Nat)
    (hw : 3 < s.worldid) : frame_body cos sin s cam frame = none := by
  unfold frame_body
  have h : ∀ (n : Nat) (c : camera α) (a b d : vec3 α), 3 < n → select_world n c a b d = none := by
    intro n c a b d hn
    match n, hn with
    | n + 4, _ => rfl
  simp only [h _ _ _ _ _ hw]

theorem video_loop_steps (cos sin : α → α) (s : settings α) (hw : s.worldid ≤ 3) (n : Nat) :
    ∀ (cam : camera α) (frame : Nat), s.num_frames - frame = n → frame ≤ s.num_frames →
      (video_loop cos sin s cam frame).map event.step
        = (List.range' frame n).flatMap
            (frame_steps s.num_frames (cam.image_width * cam.image_height * 4))
          ++ closing_steps s.num_frames := by
  induction n with
  | zero =>
    intro cam frame hn hle
    have hlt : ¬ frame < s.num_frames := by omega
    rw [video_loop, if_neg hlt]
    by_cases h1 : s.num_frames > 1 <;> simp [closing_steps, h1, event.step]
  | succ n ih =>
    intro cam frame hn hle
    have hlt : frame < s.num_frames := by omega
    obtain ⟨calls, cam1, hb, hw1, hh1, hsteps, _⟩ := frame_body_spec cos sin s cam frame hw
    rw [video_loop, if_pos hlt, hb]
    simp only [List.map_append, hsteps]
    rw [ih cam1 (frame + 1) (by omega) (by omega), hw1, hh1, List.range'_succ,
      List.flatMap_cons, List.append_assoc]

theorem video_loop_poses (cos sin : α → α) (s : settings α) (hw : s.worldid ≤ 3) (n : Nat) :
    ∀ (cam : camera α) (frame : Nat), s.num_frames - frame = n → frame ≤ s.num_frames →
      (video_loop cos sin s cam frame).filterMap event.pose
        = (List.range' frame n).map (fun f =>
            (f, (⟨lerp s.lookfrom0 s.lookfrom1 f s.num_frames, frame_lookat cos sin s f,
              lerp s.vup0 s.vup1 f s.num_frames⟩ : pose α))) := by
  induction n with
  | zero =>
    intro cam frame hn hle
    have hlt : ¬ frame < s.num_frames := by omega
    rw [video_loop, if_neg hlt]
    by_cases h1 : s.num_frames > 1 <;> simp [h1, event.pose]
  | succ n ih =>
    intro cam frame hn hle
    have hlt : frame < s.num_frames := by omega
    obtain ⟨calls, cam1, hb, _, _, _, hposes⟩ := frame_body_spec cos sin s cam frame hw
    rw [video_loop, if_pos hlt, hb]
    simp only [List.filterMap_append, hposes]
    rw [ih cam1 (frame + 1) (by omega) (by omega), List.range'_succ, List.map_cons]
    rfl

end loop_facts

/-! ## Facts on the configuration reader -/

section config_facts
variable {α : Type}

theorem getline_eq (conf : List String) : getline conf = (line_at conf 0, conf.drop 1) := by
  cases conf <;> rfl

theorem line_at_drop (conf : List String) (i j : Nat) :
    line_at (conf.drop i) j = line_at conf (i + j) := by
  unfold line_at
  rw [List.drop_drop]

theorem read_config_string_eq (conf : List String) (key default_value : String) :
    read_config_string conf key default_value
      = (string_on_line (line_at conf 0) key default_value, conf.drop 1) := by
  unfold string_on_line read_config_string
  rw [getline_eq conf]
  rfl

theorem read_config_int_eq (stoi : String → Option Int) (conf : List String) (key : String)
    (default_value : Int) :
    read_config_int stoi conf key default_value
      = (int_on_line stoi (line_at conf 0) key default_value).map
          (fun v => (v, conf.drop 1)) := by
  unfold int_on_line read_config_int
  rw [getline_eq conf]
  simp only [getline, line_at, List.drop_zero]
  split <;> simp [Option.map_map, Function.comp_def]

theorem read_config_double_eq (stod : String → Option α) (conf : List String) (key : String)
    (default_value : α) :
    read_config_double stod conf key default_value
      = (double_on_line stod (line_at conf 0) key default_value).map
          (fun v => (v, conf.drop 1)) := by
  unfold double_on_line read_config_double
  rw [getline_eq conf]
  simp only [getline, line_at, List.drop_zero]
  split <;> simp [Option.map_map, Function.comp_def]

theorem read_config_vec3_eq (extract3 : List Char → Option (vec3 α)) (conf : List String)
    (key : String) (default_value : vec3 α) :
    read_config_vec3 extract3 conf key default_value
      = (vec3_on_line extract3 (line_at conf 0) key default_value, conf.drop 1) := by
  unfold vec3_on_line read_config_vec3
  rw [getline_eq conf]
  simp only [getline, line_at, List.drop_zero]
  split
  · rfl
  · split <;> rfl

end config_facts

theorem read_settings_eq {α : Type} [LinearOrderedField α] (stoi : String → Option Int)
    (stod : String → Option α) (extract3 : List Char → Option (vec3 α))
    (conf : List String) :
    read_settings stoi stod extract3 conf = settings_at_positions stoi stod extract3 conf := by
  unfold read_settings settings_at_positions
  simp only [read_config_string_eq, read_config_int_eq, read_config_double_eq,
    read_config_vec3_eq, line_at_drop, List.drop_drop, Nat.reduceAdd]
  cases int_on_line stoi (line_at conf 1) "w" 1200 <;>
    simp only [Option.map_none', Option.map_some', line_at_drop, List.drop_drop,
      Nat.reduceAdd]
  cases int_on_line stoi (line_at conf 2) "h" 1024 <;>
    simp only [Option.map_none', Option.map_some', line_at_drop, List.drop_drop,
      Nat.reduceAdd]
  cases int_on_line stoi (line_at conf 3) "num_frames" 30 <;>
    simp only [Option.map_none', Option.map_some', line_at_drop, List.drop_drop,
      Nat.reduceAdd]
  cases int_on_line stoi (line_at conf 4) "world" 0 <;>
    simp only [Option.map_none', Option.map_some', line_at_drop, List.drop_drop,
      Nat.reduceAdd]
  cases int_on_line stoi (line_at conf 5) "min_coord" (-11) <;>
    simp only [Option.map_none', Option.map_some', line_at_drop, List.drop_drop,
      Nat.reduceAdd]
  cases int_on_line stoi (line_at conf 6) "max_coord" 11 <;>
    simp only [Option.map_none', Option.map_some', line_at_drop, List.drop_drop,
      Nat.reduceAdd]
  cases int_on_line stoi (line_at conf 7) "samples_per_pixel" 10 <;>
    simp only [Option.map_none', Option.map_some', line_at_drop, List.drop_drop,
      Nat.reduceAdd]
  cases int_on_line stoi (line_at conf 8) "max_depth" 40 <;>
    simp only [Option.map_none', Option.map_some', line_at_drop, List.drop_drop,
      Nat.reduceAdd]
  cases double_on_line stod (line_at conf 9) "vfov" 90 <;>
    simp only [Option.map_none', Option.map_some', line_at_drop, List.drop_drop,
      Nat.reduceAdd]
  cases double_on_line stod (line_at conf 10) "defocus_angle" (1 / 10) <;>
    simp only [Option.map_none', Option.map_some', line_at_drop, List.drop_drop,
      Nat.reduceAdd]
  cases double_on_line stod (line_at conf 11) "focus_dist" 10 <;>
    simp only [Option.map_none', Option.map_some', line_at_drop, List.drop_drop,
      Nat.reduceAdd]

/-! ## Runs of `cone::hit` on sample rays -/

theorem new_quarter (vertex : vec3 ℝ) (height : ℝ) (mat : material) :
    cone.new Real.tan vertex height (Real.pi / 4) mat = ⟨vertex, height, 1, mat⟩ := by
  unfold cone.new
  rw [Real.tan_pi_div_four]

theorem surrounds_ahead (x : ℝ) : (ahead ℝ).surrounds x ↔ 0 < x := surrounds_from 0 x

/-- A horizontal ray that meets the side of the cone. -/
theorem side_ray_facts :
    cone.discriminant (⟨⟨0, 0, 0⟩, 2, 1, ⟨0⟩⟩ : cone ℝ) ⟨⟨3, 1, 0⟩, ⟨-1, 0, 0⟩⟩ = 4
      ∧ cone.A (⟨⟨0, 0, 0⟩, 2, 1, ⟨0⟩⟩ : cone ℝ) ⟨⟨3, 1, 0⟩, ⟨-1, 0, 0⟩⟩ = 1
      ∧ cone.first_root Real.sqrt (⟨⟨0, 0, 0⟩, 2, 1, ⟨0⟩⟩ : cone ℝ) ⟨⟨3, 1, 0⟩, ⟨-1, 0, 0⟩⟩
          = 2 := by
  have hd : cone.discriminant (⟨⟨0, 0, 0⟩, 2, 1, ⟨0⟩⟩ : cone ℝ) ⟨⟨3, 1, 0⟩, ⟨-1, 0, 0⟩⟩ = 4 := by
    norm_num [cone.discriminant, cone.A, cone.B, cone.C, cone.oc, cone.k2]
  refine ⟨hd, ?_, ?_⟩
  · norm_num [cone.A, cone.k2]
  · unfold cone.first_root
    rw [hd, sqrt_of_sq 2 (by norm_num) 4 (by norm_num)]
    norm_num [cone.A, cone.B, cone.oc, cone.k2]

theorem side_ray_run :
    (cone.hit Real.sqrt (cone.new Real.tan ⟨0, 0, 0⟩ 2 (Real.pi / 4) ⟨0⟩)
      ⟨⟨3, 1, 0⟩, ⟨-1, 0, 0⟩⟩ (ahead ℝ) (blank_record ℝ)).1 = true := by
  obtain ⟨hd, _, hf⟩ := side_ray_facts
  rw [new_quarter, hit_first_accept]
  · rw [hd]
    norm_num
  · rw [hf, surrounds_ahead]
    norm_num
  · rw [hf]
    norm_num [ray.point_at]

/-- A ray that enters the cone above its rim and leaves through its side. -/
theorem rim_ray_facts :
    cone.discriminant (⟨⟨0, 0, 0⟩, 2, 1, ⟨0⟩⟩ : cone ℝ) ⟨⟨-5, 4, 0⟩, ⟨2, -1, 0⟩⟩ = 36
      ∧ cone.A (⟨⟨0, 0, 0⟩, 2, 1, ⟨0⟩⟩ : cone ℝ) ⟨⟨-5, 4, 0⟩, ⟨2, -1, 0⟩⟩ = 3
      ∧ cone.first_root Real.sqrt (⟨⟨0, 0, 0⟩, 2, 1, ⟨0⟩⟩ : cone ℝ) ⟨⟨-5, 4, 0⟩, ⟨2, -1, 0⟩⟩
          = 1 := by
  have hd : cone.discriminant (⟨⟨0, 0, 0⟩, 2, 1, ⟨0⟩⟩ : cone ℝ) ⟨⟨-5, 4, 0⟩, ⟨2, -1, 0⟩⟩
      = 36 := by
    norm_num [cone.discriminant, cone.A, cone.B, cone.C, cone.oc, cone.k2]
  refine ⟨hd, ?_, ?_⟩
  · norm_num [cone.A, cone.k2]
  · unfold cone.first_root
    rw [hd, sqrt_of_sq 6 (by norm_num) 36 (by norm_num)]
    norm_num [cone.A, cone.B, cone.oc, cone.k2]

theorem rim_ray_run :
    cone.hit Real.sqrt (cone.new Real.tan ⟨0, 0, 0⟩ 2 (Real.pi / 4) ⟨0⟩)
        ⟨⟨-5, 4, 0⟩, ⟨2, -1, 0⟩⟩ (ahead ℝ) (blank_record ℝ)
      = (false, { blank_record ℝ with t := 1, p := ⟨-3, 3, 0⟩ }) := by
  obtain ⟨hd, _, hf⟩ := rim_ray_facts
  rw [new_quarter, hit_first_reject]
  · rw [hf]
    norm_num [ray.point_at, vec3_ext_iff]
  · rw [hd]
    norm_num
  · rw [hf, surrounds_ahead]
    norm_num
  · rw [hf]
    norm_num [ray.point_at]


/-- A horizontal ray below the apex, which meets the lower nappe only. -/
theorem low_ray_facts :
    cone.discriminant (⟨⟨0, 0, 0⟩, 2, 1, ⟨0⟩⟩ : cone ℝ) ⟨⟨3, -1, 0⟩, ⟨-1, 0, 0⟩⟩ = 4
      ∧ cone.A (⟨⟨0, 0, 0⟩, 2, 1, ⟨0⟩⟩ : cone ℝ) ⟨⟨3, -1, 0⟩, ⟨-1, 0, 0⟩⟩ = 1
      ∧ cone.first_root Real.sqrt (⟨⟨0, 0, 0⟩, 2, 1, ⟨0⟩⟩ : cone ℝ) ⟨⟨3, -1, 0⟩, ⟨-1, 0, 0⟩⟩
          = 2 := by
  have hd : cone.discriminant (⟨⟨0, 0, 0⟩, 2, 1, ⟨0⟩⟩ : cone ℝ) ⟨⟨3, -1, 0⟩, ⟨-1, 0, 0⟩⟩
      = 4 := by
    norm_num [cone.discriminant, cone.A, cone.B, cone.C, cone.oc, cone.k2]
  refine ⟨hd, ?_, ?_⟩
  · norm_num [cone.A, cone.k2]
  · unfold cone.first_root
    rw [hd, sqrt_of_sq 2 (by norm_num) 4 (by norm_num)]
    norm_num [cone.A, cone.B, cone.oc, cone.k2]

theorem low_ray_run :
    cone.hit Real.sqrt (cone.new Real.tan ⟨0, 0, 0⟩ 2 (Real.pi / 4) ⟨0⟩)
        ⟨⟨3, -1, 0⟩, ⟨-1, 0, 0⟩⟩ (ahead ℝ) (blank_record ℝ)
      = (false, { blank_record ℝ with t := 2, p := ⟨1, -1, 0⟩ }) := by
  obtain ⟨hd, _, hf⟩ := low_ray_facts
  rw [new_quarter, hit_first_reject]
  · rw [hf]
    norm_num [ray.point_at, vec3_ext_iff]
  · rw [hd]
    norm_num
  · rw [hf, surrounds_ahead]
    norm_num
  · rw [hf]
    norm_num [ray.point_at]

/-- A horizontal ray towards a cone whose apex is off the vertical axis through
the origin. -/
theorem offset_ray_facts :
    cone.discriminant (⟨⟨-1, 0, 0⟩, 10, 1, ⟨0⟩⟩ : cone ℝ) ⟨⟨8, 4, 0⟩, ⟨-1, 0, 0⟩⟩ = 64
      ∧ cone.A (⟨⟨-1, 0, 0⟩, 10, 1, ⟨0⟩⟩ : cone ℝ) ⟨⟨8, 4, 0⟩, ⟨-1, 0, 0⟩⟩ = 1
      ∧ cone.first_root Real.sqrt (⟨⟨-1, 0, 0⟩, 10, 1, ⟨0⟩⟩ : cone ℝ) ⟨⟨8, 4, 0⟩, ⟨-1, 0, 0⟩⟩
          = 5 := by
  have hd : cone.discriminant (⟨⟨-1, 0, 0⟩, 10, 1, ⟨0⟩⟩ : cone ℝ) ⟨⟨8, 4, 0⟩, ⟨-1, 0, 0⟩⟩
      = 64 := by
    norm_num [cone.discriminant, cone.A, cone.B, cone.C, cone.oc, cone.k2]
  refine ⟨hd, ?_, ?_⟩
  · norm_num [cone.A, cone.k2]
  · unfold cone.first_root
    rw [hd, sqrt_of_sq 8 (by norm_num) 64 (by norm_num)]
    norm_num [cone.A, cone.B, cone.oc, cone.k2]

theorem offset_ray_run :
    cone.hit Real.sqrt (cone.new Real.tan ⟨-1, 0, 0⟩ 10 (Real.pi / 4) ⟨0⟩)
        ⟨⟨8, 4, 0⟩, ⟨-1, 0, 0⟩⟩ (ahead ℝ) (blank_record ℝ)
      = (true, ⟨⟨3, 4, 0⟩, ⟨3 / 5, -4 / 5, 0⟩, ⟨0⟩, 5, true⟩) := by
  obtain ⟨hd, _, hf⟩ := offset_ray_facts
  rw [new_quarter, hit_first_accept]
  · rw [hf]
    have h5 : Real.sqrt 25 = 5 := sqrt_of_sq 5 (by norm_num) 25 (by norm_num)
    norm_num [ray.point_at, hit_record.set_face_normal, vec3.dot, vec3.unit_vector,
      vec3.length, cone.k2, blank_record, h5, vec3_ext_iff]
  · rw [hd]
    norm_num
  · rw [hf, surrounds_ahead]
    norm_num
  · rw [hf]
    norm_num [ray.point_at]

/-- A vertical ray beside the axis, steeper than the side of the cone. -/
theorem steep_ray_facts :
    cone.discriminant (⟨⟨0, 0, 0⟩, 2, 1, ⟨0⟩⟩ : cone ℝ) ⟨⟨1, -5, 0⟩, ⟨0, 1, 0⟩⟩ = 4
      ∧ cone.A (⟨⟨0, 0, 0⟩, 2, 1, ⟨0⟩⟩ : cone ℝ) ⟨⟨1, -5, 0⟩, ⟨0, 1, 0⟩⟩ = -1
      ∧ cone.first_root Real.sqrt (⟨⟨0, 0, 0⟩, 2, 1, ⟨0⟩⟩ : cone ℝ) ⟨⟨1, -5, 0⟩, ⟨0, 1, 0⟩⟩
          = 6
      ∧ cone.second_root Real.sqrt (⟨⟨0, 0, 0⟩, 2, 1, ⟨0⟩⟩ : cone ℝ) ⟨⟨1, -5, 0⟩, ⟨0, 1, 0⟩⟩
          = 4 := by
  have hd : cone.discriminant (⟨⟨0, 0, 0⟩, 2, 1, ⟨0⟩⟩ : cone ℝ) ⟨⟨1, -5, 0⟩, ⟨0, 1, 0⟩⟩
      = 4 := by
    norm_num [cone.discriminant, cone.A, cone.B, cone.C, cone.oc, cone.k2]
  refine ⟨hd, ?_, ?_, ?_⟩
  · norm_num [cone.A, cone.k2]
  · unfold cone.first_root
    rw [hd, sqrt_of_sq 2 (by norm_num) 4 (by norm_num)]
    norm_num [cone.A, cone.B, cone.oc, cone.k2]
  · unfold cone.second_root
    rw [hd, sqrt_of_sq 2 (by norm_num) 4 (by norm_num)]
    norm_num [cone.A, cone.B, cone.oc, cone.k2]

/-- The run of `cone::hit` on a ray up the axis from below the apex. -/
theorem axis_ray_run (H θ a : ℝ) (mat : material) (rec_in : hit_record ℝ) (hH : 0 < H)
    (hθ : Real.tan θ ≠ 0) (ha : 0 < a) :
    (cone.hit Real.sqrt (cone.new Real.tan ⟨0, 0, 0⟩ H θ mat) ⟨⟨0, -a, 0⟩, ⟨0, 1, 0⟩⟩
        ⟨bound.of 0, bound.infinity⟩ rec_in).1 = true
      ∧ (cone.hit Real.sqrt (cone.new Real.tan ⟨0, 0, 0⟩ H θ mat) ⟨⟨0, -a, 0⟩, ⟨0, 1, 0⟩⟩
        ⟨bound.of 0, bound.infinity⟩ rec_in).2.t = a
      ∧ (cone.hit Real.sqrt (cone.new Real.tan ⟨0, 0, 0⟩ H θ mat) ⟨⟨0, -a, 0⟩, ⟨0, 1, 0⟩⟩
        ⟨bound.of 0, bound.infinity⟩ rec_in).2.p = ⟨0, 0, 0⟩ := by
  have hk : (cone.new Real.tan ⟨0, 0, 0⟩ H θ mat).k = Real.tan θ := rfl
  have hv : (cone.new Real.tan ⟨0, 0, 0⟩ H θ mat).vertex = ⟨0, 0, 0⟩ := rfl
  have hh : (cone.new Real.tan ⟨0, 0, 0⟩ H θ mat).height = H := rfl
  have hd : cone.discriminant (cone.new Real.tan ⟨0, 0, 0⟩ H θ mat)
      ⟨⟨0, -a, 0⟩, ⟨0, 1, 0⟩⟩ = 0 := by
    simp only [cone.discriminant, cone.A, cone.B, cone.C, cone.oc, cone.k2, hk, hv,
      vec3_sub_x, vec3_sub_y, vec3_sub_z]
    ring
  have hf : cone.first_root Real.sqrt (cone.new Real.tan ⟨0, 0, 0⟩ H θ mat)
      ⟨⟨0, -a, 0⟩, ⟨0, 1, 0⟩⟩ = a := by
    unfold cone.first_root
    rw [hd, Real.sqrt_zero]
    simp only [cone.A, cone.B, cone.oc, cone.k2, hk, hv, vec3_sub_x, vec3_sub_y, vec3_sub_z]
    field_simp
    ring
  rw [hit_first_accept]
  · rw [hf]
    refine ⟨rfl, rfl, ?_⟩
    norm_num [ray.point_at, vec3_ext_iff, hit_record.set_face_normal]
  · rw [hd]
    norm_num
  · rw [hf, surrounds_from]
    exact ha
  · rw [hf, hv, hh]
    norm_num [ray.point_at]
    exact hH.le



/-! ## Facts on `render` -/

section render_facts

variable {α : Type} [LinearOrderedField α]

/-- After frame 0 a frame is a render followed by a write. -/
theorem later_frames_steps (N size : Nat) (hN : 1 < N) (n : Nat) :
    ∀ start, 1 ≤ start →
      (List.range' start n).flatMap (frame_steps N size)
        = (List.range' start n).flatMap
            (fun f => [step.render_frame f, step.write_bytes f size]) := by
  induction n with
  | zero =>
    intro start _
    rfl
  | succ n ih =>
    intro start hs
    have h0 : start ≠ 0 := by omega
    rw [List.range'_succ, List.flatMap_cons, List.flatMap_cons, ih (start + 1) (by omega)]
    simp [frame_steps, h0, hN]

/-- The calls of `render` as the sinks see them, for a recognised world. -/
theorem render_frames_steps (cos sin : α → α) (s : settings α) (hw : s.worldid ≤ 3) :
    (render_frames cos sin s).map event.step
      = (if s.num_frames > 1 then [step.open_channel] else [])
        ++ (List.range' 0 s.num_frames).flatMap (frame_steps s.num_frames (s.w * s.h * 4))
        ++ closing_steps s.num_frames := by
  unfold render_frames
  simp only [List.map_append]
  rw [video_loop_steps cos sin s hw s.num_frames _ 0 (by omega) (by omega)]
  by_cases h1 : s.num_frames > 1 <;> simp [h1, event.step]

/-- The poses `render` hands to the renderer, for a recognised world. -/
theorem render_frames_poses (cos sin : α → α) (s : settings α) (hw : s.worldid ≤ 3) :
    (render_frames cos sin s).filterMap event.pose
      = (List.range s.num_frames).map (fun f =>
          (f, (⟨lerp s.lookfrom0 s.lookfrom1 f s.num_frames, frame_lookat cos sin s f,
            lerp s.vup0 s.vup1 f s.num_frames⟩ : pose α))) := by
  unfold render_frames
  simp only [List.filterMap_append]
  rw [video_loop_poses cos sin s hw s.num_frames _ 0 (by omega) (by omega),
    List.range_eq_range']
  by_cases h1 : s.num_frames > 1 <;> simp [h1, event.pose]

/-- The interpolation at frame 0 is the first keyframe. -/
theorem lerp_zero (value0 value1 : vec3 α) (N : Nat) : lerp value0 value1 0 N = value0 := by
  simp [lerp, vec3_ext_iff]

/-- The calls of `render` for an unrecognised world and more than one frame. -/
theorem render_frames_unrecognised (cos sin : α → α) (s : settings α) (hw : 3 < s.worldid)
    (hN : 1 < s.num_frames) :
    render_frames cos sin s
      = [event.setup_video_pipe s.w s.h 30 (s.filename ++ ".mp4")] := by
  have h0 : 0 < s.num_frames := by omega
  unfold render_frames
  dsimp only
  rw [video_loop, if_pos h0, frame_body_none cos sin s _ 0 hw]
  simp [hN]

end render_facts


/-! ## The claims on `cone::hit` -/

/-- Claim C1: with `A ≠ 0`, whenever `cone::hit` reports a hit, `rec.p` is the
ray point at `rec.t`, and `rec.t` lies inside the interval, on the finite cone
(on the surface, with local height in `[0, height]`), and is the smallest
such parameter. -/
theorem cone_hit_is_nearest (c : cone ℝ) (r : ray ℝ) (ray_t : interval ℝ)
    (rec_in : hit_record ℝ) (hA : c.A r ≠ 0)
    (hhit : (c.hit Real.sqrt r ray_t rec_in).1 = true) :
    (c.hit Real.sqrt r ray_t rec_in).2.p = r.point_at (c.hit Real.sqrt r ray_t rec_in).2.t
      ∧ ray_t.surrounds (c.hit Real.sqrt r ray_t rec_in).2.t
      ∧ c.on_finite_cone (r.point_at (c.hit Real.sqrt r ray_t rec_in).2.t)
      ∧ ∀ t, ray_t.surrounds t → c.on_finite_cone (r.point_at t)
          → (c.hit Real.sqrt r ray_t rec_in).2.t ≤ t := by
  obtain ⟨hd, root, hroot, ht, hp, hy0, hyH⟩ := hit_true_inv Real.sqrt c r ray_t rec_in hhit
  have hs := Real.mul_self_sqrt hd
  have hs0 := Real.sqrt_nonneg (c.discriminant r)
  obtain ⟨hsur, hwhich⟩ := find_root_some Real.sqrt c r ray_t root hroot
  have hquad : c.A r * (root * root) + c.B r * root + c.C r = 0 := by
    rw [quadratic_iff_roots Real.sqrt c r hA hs]
    rcases hwhich with h | ⟨h, _⟩
    · exact Or.inr h
    · exact Or.inl h
  rw [ht, hp]
  refine ⟨rfl, hsur, ⟨(surface_iff_quadratic c r root).mpr hquad, hy0, hyH⟩, ?_⟩
  intro t htsur hton
  have htq := (surface_iff_quadratic c r t).mp hton.1
  rw [quadratic_iff_roots Real.sqrt c r hA hs] at htq
  rcases hwhich with h | ⟨h, hnot⟩
  · rcases htq with h2 | h1
    · rw [h, h2]
      apply first_le_second_of_heights Real.sqrt c r hA hs hs0
      · rw [← h]
        exact hy0
      · rw [← h2]
        exact hton.2.1
    · rw [h, h1]
  · rcases htq with h2 | h1
    · rw [h, h2]
    · rw [h1] at htsur
      exact absurd htsur hnot

/-- Witness of C1: a horizontal ray from `(3, 1, 0)` towards the cone of height
`2` and half-angle `π/4` with apex at the origin. -/
theorem cone_hit_is_nearest_witness :
    cone.A (cone.new Real.tan ⟨0, 0, 0⟩ 2 (Real.pi / 4) ⟨0⟩) ⟨⟨3, 1, 0⟩, ⟨-1, 0, 0⟩⟩ ≠ 0
      ∧ (cone.hit Real.sqrt (cone.new Real.tan ⟨0, 0, 0⟩ 2 (Real.pi / 4) ⟨0⟩)
          ⟨⟨3, 1, 0⟩, ⟨-1, 0, 0⟩⟩ (ahead ℝ) (blank_record ℝ)).1 = true
      ∧ ∀ t, (ahead ℝ).surrounds t
          → cone.on_finite_cone (cone.new Real.tan ⟨0, 0, 0⟩ 2 (Real.pi / 4) ⟨0⟩)
              (ray.point_at ⟨⟨3, 1, 0⟩, ⟨-1, 0, 0⟩⟩ t)
          → (cone.hit Real.sqrt (cone.new Real.tan ⟨0, 0, 0⟩ 2 (Real.pi / 4) ⟨0⟩)
              ⟨⟨3, 1, 0⟩, ⟨-1, 0, 0⟩⟩ (ahead ℝ) (blank_record ℝ)).2.t ≤ t :=
  have hA : cone.A (cone.new Real.tan ⟨0, 0, 0⟩ 2 (Real.pi / 4) ⟨0⟩)
      ⟨⟨3, 1, 0⟩, ⟨-1, 0, 0⟩⟩ ≠ 0 := by
    rw [new_quarter, side_ray_facts.2.1]
    norm_num
  ⟨hA, side_ray_run,
    (cone_hit_is_nearest _ _ (ahead ℝ) (blank_record ℝ) hA side_ray_run).2.2.2⟩

/-- Claim C2, evaluated where the code departs from it: the ray from
`(-5, 4, 0)` along `(2, -1, 0)` strikes the side of the cone (apex at the
origin, height `2`, half-angle `π/4`) at `t = 3`, the smallest parameter ahead
of the origin at which it lies on the finite cone, and `cone::hit` reports no
hit. -/
theorem hit_misses_entry_above_rim :
    cone.A (cone.new Real.tan ⟨0, 0, 0⟩ 2 (Real.pi / 4) ⟨0⟩) ⟨⟨-5, 4, 0⟩, ⟨2, -1, 0⟩⟩ ≠ 0
      ∧ (ahead ℝ).surrounds 3
      ∧ cone.on_finite_cone (cone.new Real.tan ⟨0, 0, 0⟩ 2 (Real.pi / 4) ⟨0⟩)
          (ray.point_at ⟨⟨-5, 4, 0⟩, ⟨2, -1, 0⟩⟩ 3)
      ∧ (∀ t, (ahead ℝ).surrounds t
          → cone.on_finite_cone (cone.new Real.tan ⟨0, 0, 0⟩ 2 (Real.pi / 4) ⟨0⟩)
              (ray.point_at ⟨⟨-5, 4, 0⟩, ⟨2, -1, 0⟩⟩ t)
          → 3 ≤ t)
      ∧ (cone.hit Real.sqrt (cone.new Real.tan ⟨0, 0, 0⟩ 2 (Real.pi / 4) ⟨0⟩)
          ⟨⟨-5, 4, 0⟩, ⟨2, -1, 0⟩⟩ (ahead ℝ) (blank_record ℝ)).1 = false := by
  refine ⟨?_, ?_, ?_, ?_, ?_⟩
  · rw [new_quarter, rim_ray_facts.2.1]
    norm_num
  · rw [surrounds_ahead]
    norm_num
  · rw [new_quarter]
    norm_num [cone.on_finite_cone, ray.point_at]
  · intro t _ hon
    rw [new_quarter] at hon
    simp only [cone.on_finite_cone, ray.point_at, vec3_add_x, vec3_add_y, vec3_add_z,
      vec3_smul_x, vec3_smul_y, vec3_smul_z] at hon
    obtain ⟨hsurf, _, hle⟩ := hon
    nlinarith
  · rw [rim_ray_run]

/-- Claim C6, evaluated where the code departs from it: on the horizontal ray
from `(3, -1, 0)`, which passes below the apex, `cone::hit` reports no hit and
yet leaves `t = 2` and `p = (1, -1, 0)` in a record that held zeros. -/
theorem no_hit_overwrites_record :
    (cone.hit Real.sqrt (cone.new Real.tan ⟨0, 0, 0⟩ 2 (Real.pi / 4) ⟨0⟩)
        ⟨⟨3, -1, 0⟩, ⟨-1, 0, 0⟩⟩ (ahead ℝ) (blank_record ℝ)).1 = false
      ∧ (cone.hit Real.sqrt (cone.new Real.tan ⟨0, 0, 0⟩ 2 (Real.pi / 4) ⟨0⟩)
        ⟨⟨3, -1, 0⟩, ⟨-1, 0, 0⟩⟩ (ahead ℝ) (blank_record ℝ)).2.t = 2
      ∧ (cone.hit Real.sqrt (cone.new Real.tan ⟨0, 0, 0⟩ 2 (Real.pi / 4) ⟨0⟩)
        ⟨⟨3, -1, 0⟩, ⟨-1, 0, 0⟩⟩ (ahead ℝ) (blank_record ℝ)).2.p = ⟨1, -1, 0⟩
      ∧ (blank_record ℝ).t = 0 ∧ (blank_record ℝ).p = ⟨0, 0, 0⟩
      ∧ (cone.hit Real.sqrt (cone.new Real.tan ⟨0, 0, 0⟩ 2 (Real.pi / 4) ⟨0⟩)
        ⟨⟨3, -1, 0⟩, ⟨-1, 0, 0⟩⟩ (ahead ℝ) (blank_record ℝ)).2.t ≠ (blank_record ℝ).t := by
  rw [low_ray_run]
  refine ⟨rfl, rfl, rfl, rfl, rfl, ?_⟩
  norm_num [blank_record]

/-- Claim C7, evaluated where the code departs from it: for the cone with apex
`(-1, 0, 0)`, the horizontal ray from `(8, 4, 0)` is reported to hit at
`p = (3, 4, 0)` with normal `(3/5, -4/5, 0)`, whose dot product with
`p - vertex = (4, 4, 0)` is `-4/5`, not zero. -/
theorem normal_not_perpendicular_off_axis :
    (cone.hit Real.sqrt (cone.new Real.tan ⟨-1, 0, 0⟩ 10 (Real.pi / 4) ⟨0⟩)
        ⟨⟨8, 4, 0⟩, ⟨-1, 0, 0⟩⟩ (ahead ℝ) (blank_record ℝ)).1 = true
      ∧ (cone.hit Real.sqrt (cone.new Real.tan ⟨-1, 0, 0⟩ 10 (Real.pi / 4) ⟨0⟩)
        ⟨⟨8, 4, 0⟩, ⟨-1, 0, 0⟩⟩ (ahead ℝ) (blank_record ℝ)).2.p = ⟨3, 4, 0⟩
      ∧ (cone.hit Real.sqrt (cone.new Real.tan ⟨-1, 0, 0⟩ 10 (Real.pi / 4) ⟨0⟩)
        ⟨⟨8, 4, 0⟩, ⟨-1, 0, 0⟩⟩ (ahead ℝ) (blank_record ℝ)).2.normal = ⟨3 / 5, -4 / 5, 0⟩
      ∧ vec3.dot
          (cone.hit Real.sqrt (cone.new Real.tan ⟨-1, 0, 0⟩ 10 (Real.pi / 4) ⟨0⟩)
            ⟨⟨8, 4, 0⟩, ⟨-1, 0, 0⟩⟩ (ahead ℝ) (blank_record ℝ)).2.normal
          ((cone.hit Real.sqrt (cone.new Real.tan ⟨-1, 0, 0⟩ 10 (Real.pi / 4) ⟨0⟩)
            ⟨⟨8, 4, 0⟩, ⟨-1, 0, 0⟩⟩ (ahead ℝ) (blank_record ℝ)).2.p
            - (cone.new Real.tan ⟨-1, 0, 0⟩ 10 (Real.pi / 4) ⟨0⟩).vertex)
          = -4 / 5 := by
  rw [offset_ray_run]
  refine ⟨rfl, rfl, rfl, ?_⟩
  norm_num [vec3.dot, cone.new]

/-- Claim C10, evaluated where the code departs from it: on the vertical ray
from `(1, -5, 0)` the discriminant is `4 ≥ 0` and `A = -1 ≠ 0`, both roots
lie ahead of the origin, and the root tested first and accepted by the
interval test is `6`, the larger of the two (the smaller is `4`); the hit is
reported at `t = 6`. -/
theorem first_root_is_larger_when_steep :
    0 ≤ cone.discriminant (cone.new Real.tan ⟨0, 0, 0⟩ 2 (Real.pi / 4) ⟨0⟩)
        ⟨⟨1, -5, 0⟩, ⟨0, 1, 0⟩⟩
      ∧ cone.A (cone.new Real.tan ⟨0, 0, 0⟩ 2 (Real.pi / 4) ⟨0⟩) ⟨⟨1, -5, 0⟩, ⟨0, 1, 0⟩⟩ ≠ 0
      ∧ cone.first_root Real.sqrt (cone.new Real.tan ⟨0, 0, 0⟩ 2 (Real.pi / 4) ⟨0⟩)
          ⟨⟨1, -5, 0⟩, ⟨0, 1, 0⟩⟩ = 6
      ∧ cone.second_root Real.sqrt (cone.new Real.tan ⟨0, 0, 0⟩ 2 (Real.pi / 4) ⟨0⟩)
          ⟨⟨1, -5, 0⟩, ⟨0, 1, 0⟩⟩ = 4
      ∧ (ahead ℝ).surrounds 4 ∧ (ahead ℝ).surrounds 6
      ∧ cone.find_root Real.sqrt (cone.new Real.tan ⟨0, 0, 0⟩ 2 (Real.pi / 4) ⟨0⟩)
          ⟨⟨1, -5, 0⟩, ⟨0, 1, 0⟩⟩ (ahead ℝ) = some 6
      ∧ (cone.hit Real.sqrt (cone.new Real.tan ⟨0, 0, 0⟩ 2 (Real.pi / 4) ⟨0⟩)
          ⟨⟨1, -5, 0⟩, ⟨0, 1, 0⟩⟩ (ahead ℝ) (blank_record ℝ)).1 = true
      ∧ (cone.hit Real.sqrt (cone.new Real.tan ⟨0, 0, 0⟩ 2 (Real.pi / 4) ⟨0⟩)
          ⟨⟨1, -5, 0⟩, ⟨0, 1, 0⟩⟩ (ahead ℝ) (blank_record ℝ)).2.t = 6 := by
  obtain ⟨hd, hA, h1, h2⟩ := steep_ray_facts
  rw [new_quarter, hd, hA, h1, h2]
  have h4 : (ahead ℝ).surrounds 4 := by
    rw [surrounds_ahead]
    norm_num
  have h6 : (ahead ℝ).surrounds 6 := by
    rw [surrounds_ahead]
    norm_num
  have hrun := hit_first_accept Real.sqrt (⟨⟨0, 0, 0⟩, 2, 1, ⟨0⟩⟩ : cone ℝ)
    ⟨⟨1, -5, 0⟩, ⟨0, 1, 0⟩⟩ (ahead ℝ) (blank_record ℝ) (by rw [hd]; norm_num)
    (by rw [h1]; exact h6) (by rw [h1]; norm_num [ray.point_at])
  rw [hrun, h1]
  refine ⟨by norm_num, by norm_num, rfl, rfl, h4, h6, ?_, rfl, rfl⟩
  unfold cone.find_root
  rw [h1, if_neg (not_not.mpr h6)]

/-! ## The claims on `render` and `read_config` -/

/-- Counterexample to C4: with one frame, world 2 and the default keyframes,
the renderer receives for frame 0 the target `(200, 0, 0)`, not the
interpolated target `(0, 0, 0)`. -/
theorem orbit_world_replaces_target :
    (render_frames Real.cos Real.sin (default_settings ℝ 1 2)).filterMap event.pose
        = [(0, ⟨⟨-2, 2, 5⟩, ⟨200, 0, 0⟩, ⟨0, 1, 0⟩⟩)]
      ∧ lerp (default_settings ℝ 1 2).lookat0 (default_settings ℝ 1 2).lookat1 0 1
        = ⟨0, 0, 0⟩
      ∧ (⟨200, 0, 0⟩ : vec3 ℝ) ≠ ⟨0, 0, 0⟩ := by
  refine ⟨?_, ?_, ?_⟩
  · rw [render_frames_poses Real.cos Real.sin (default_settings ℝ 1 2) (by decide)]
    have hN : (default_settings ℝ 1 2).num_frames = 1 := rfl
    rw [hN, show List.range 1 = [0] from rfl]
    simp [frame_lookat, orbit_target, lerp_zero, default_settings]
  · exact lerp_zero _ _ 1
  · simp [vec3_ext_iff]

/-- Claim C4 as amended: for every frame `f < N` the renderer receives eye and
up equal to `value0 + (f/N) * (value1 - value0)`; the target is interpolated
in the same way for the world selectors 0, 1 and 3, and is the orbit point
`(200 cos(f/100), 0, 200 sin(f/100))` for the world selector 2; at frame 0
the interpolation gives the first keyframe exactly. -/
theorem render_poses {α : Type} [LinearOrderedField α] (cos sin : α → α) (s : settings α)
    (hw : s.worldid ≤ 3) :
    (s.worldid ≠ 2 →
        (render_frames cos sin s).filterMap event.pose
          = (List.range s.num_frames).map (fun f =>
              (f, (⟨lerp s.lookfrom0 s.lookfrom1 f s.num_frames,
                lerp s.lookat0 s.lookat1 f s.num_frames,
                lerp s.vup0 s.vup1 f s.num_frames⟩ : pose α))))
      ∧ (s.worldid = 2 →
        (render_frames cos sin s).filterMap event.pose
          = (List.range s.num_frames).map (fun f =>
              (f, (⟨lerp s.lookfrom0 s.lookfrom1 f s.num_frames,
                ⟨200 * cos ((f : α) / 100), 0, 200 * sin ((f : α) / 100)⟩,
                lerp s.vup0 s.vup1 f s.num_frames⟩ : pose α))))
      ∧ lerp s.lookfrom0 s.lookfrom1 0 s.num_frames = s.lookfrom0
      ∧ lerp s.lookat0 s.lookat1 0 s.num_frames = s.lookat0
      ∧ lerp s.vup0 s.vup1 0 s.num_frames = s.vup0 := by
  refine ⟨?_, ?_, lerp_zero _ _ _, lerp_zero _ _ _, lerp_zero _ _ _⟩
  · intro h2
    rw [render_frames_poses cos sin s hw]
    simp only [frame_lookat, if_neg h2]
  · intro h2
    rw [render_frames_poses cos sin s hw]
    simp only [frame_lookat, if_pos h2, orbit_target]

/-- Witness of the amended C4: thirty frames of the second world. -/
theorem render_poses_witness :
    (default_settings ℝ 30 1).worldid ≤ 3
      ∧ (render_frames Real.cos Real.sin (default_settings ℝ 30 1)).filterMap event.pose
        = (List.range 30).map (fun f =>
            (f, (⟨lerp ⟨-2, 2, 5⟩ ⟨13, 2, 3⟩ f 30, lerp ⟨0, 0, 0⟩ ⟨0, 0, 0⟩ f 30,
              lerp ⟨0, 1, 0⟩ ⟨0, 1, 0⟩ f 30⟩ : pose ℝ))) :=
  ⟨by decide,
    (render_poses Real.cos Real.sin (default_settings ℝ 30 1) (by decide)).1 (by decide)⟩

/-- Claim C5, evaluated where the code departs from it: on a configuration file
with two frames and the unrecognised world selector 7, `render` opens the
streaming channel and returns without any further call, so the channel is
never closed; the one call is `setup_video_pipe(1200, 1024, 30, "test.mp4")`. -/
theorem early_return_leaves_channel_open :
    (render stoi_decimal stod_decimal extract3_decimal Real.cos Real.sin
        ["filename test", "w 1200", "h 1024", "num_frames 2", "world 7"]).map
          (List.map event.step)
        = some [step.open_channel]
      ∧ render_frames Real.cos Real.sin (default_settings ℝ 2 7)
        = [event.setup_video_pipe 1200 1024 30 "test.mp4"]
      ∧ step.close_channel
        ∉ (render_frames Real.cos Real.sin (default_settings ℝ 2 7)).map event.step := by
  have h := render_frames_unrecognised Real.cos Real.sin (default_settings ℝ 2 7)
    (by decide) (by decide)
  have hname : (default_settings ℝ 2 7).filename ++ ".mp4" = "test.mp4" := by decide
  rw [hname] at h
  refine ⟨?_, h, ?_⟩
  · have hs : (read_settings stoi_decimal stod_decimal extract3_decimal
        ["filename test", "w 1200", "h 1024", "num_frames 2", "world 7"]
          : Option (settings ℝ)).map (fun s => (s.num_frames, s.worldid)) = some (2, 7) := by
      decide
    obtain ⟨s, hread, hval⟩ := Option.map_eq_some'.mp hs
    have hN : s.num_frames = 2 := congrArg Prod.fst hval
    have hw : s.worldid = 7 := congrArg Prod.snd hval
    unfold render
    rw [hread, Option.map_some', Option.map_some',
      render_frames_unrecognised Real.cos Real.sin s (by omega) (by omega)]
    rfl
  · rw [h]
    simp [event.step]

/-- Counterexample to C8: in a file whose lines for `w` and `h` have changed
places the read of `w` is the first to mismatch, and yet the later reads of
`num_frames` and `world` match and return the values of the file, `5` and
`1`, not the defaults `30` and `0`. -/
theorem later_reads_still_match :
    confkey_of (line_at swapped_conf 1) ≠ "w"
      ∧ confkey_of (line_at swapped_conf 2) ≠ "h"
      ∧ confkey_of (line_at swapped_conf 3) = "num_frames"
      ∧ confkey_of (line_at swapped_conf 4) = "world"
      ∧ (read_settings stoi_decimal stod_decimal extract3_decimal swapped_conf
          : Option (settings ℝ)).map (fun s => (s.w, s.h, s.num_frames, s.worldid))
        = some (1200, 1024, 5, 1) := by
  refine ⟨by decide, by decide, by decide, by decide, by decide⟩

/-- Claim C8 as amended: every read consumes exactly one line and compares the
first token of that line with the requested key, returning the caller's
default when they differ; so the value `render` gives to each variable
depends only on the line at that variable's own position in the file: a read
mismatches exactly when its own line carries another key, whatever the
earlier reads met. -/
theorem reads_depend_on_own_line {α : Type} [LinearOrderedField α]
    (stoi : String → Option Int) (stod : String → Option α)
    (extract3 : List Char → Option (vec3 α)) (conf : List String) :
    read_settings stoi stod extract3 conf = settings_at_positions stoi stod extract3 conf
      ∧ (∀ (key default_value : String),
          read_config_string conf key default_value
            = (string_on_line (line_at conf 0) key default_value, conf.drop 1))
      ∧ (∀ (key : String) (default_value : Int),
          read_config_int stoi conf key default_value
            = (int_on_line stoi (line_at conf 0) key default_value).map
                (fun v => (v, conf.drop 1)))
      ∧ (∀ (key : String) (default_value : α),
          read_config_double stod conf key default_value
            = (double_on_line stod (line_at conf 0) key default_value).map
                (fun v => (v, conf.drop 1)))
      ∧ (∀ (key : String) (default_value : vec3 α),
          read_config_vec3 extract3 conf key default_value
            = (vec3_on_line extract3 (line_at conf 0) key default_value, conf.drop 1))
      ∧ (∀ (line key default_value : String),
          string_on_line line key default_value
            = if key = confkey_of line then
                (extract_token (extract_token line.data).2).1
              else default_value)
      ∧ (∀ (line key : String) (default_value : Int),
          int_on_line stoi line key default_value
            = if key = confkey_of line then
                stoi (extract_token (extract_token line.data).2).1
              else some default_value)
      ∧ (∀ (line key : String) (default_value : α),
          double_on_line stod line key default_value
            = if key = confkey_of line then
                stod (extract_token (extract_token line.data).2).1
              else some default_value)
      ∧ (∀ (line key : String) (default_value : vec3 α),
          vec3_on_line extract3 line key default_value
            = if key = confkey_of line then
                (extract3 (extract_token line.data).2).getD default_value
              else default_value) := by
  refine ⟨read_settings_eq stoi stod extract3 conf, read_config_string_eq conf,
    read_config_int_eq stoi conf, read_config_double_eq stod conf,
    read_config_vec3_eq extract3 conf, ?_, ?_, ?_, ?_⟩
  · intro line key default_value
    rfl
  · intro line key default_value
    unfold int_on_line read_config_int confkey_of
    simp only [getline]
    split <;> simp [Option.map_map, Function.comp_def]
  · intro line key default_value
    unfold double_on_line read_config_double confkey_of
    simp only [getline]
    split <;> simp [Option.map_map, Function.comp_def]
  · intro line key default_value
    unfold vec3_on_line read_config_vec3 confkey_of
    simp only [getline]
    by_cases hk : key = (extract_token line.data).1
    · simp only [hk, ne_eq, not_true_eq_false, if_false, if_true]
      cases extract3 (extract_token line.data).2 <;> rfl
    · simp [hk]

end Raytrace
